import Mathlib

/-!
Shallow embedding of the `dependency-hell-cli` Go program: the core data
model (`internal/core/types.go`), the filesystem scanner
(`internal/scanner/path.go`, `internal/scanner/disk.go`), the cleaner
(`internal/cleaner/cleaner.go`), the per-ecosystem providers
(`internal/providers/*.go`), and the two orchestrators
(`cmd/clean.go` `cleanProvider`, `cmd/scan.go` `scanProviders`).

Filesystem and subprocess effects are modelled by an explicit `World`
value: the set of existing paths, an oracle for the total size of a
directory tree (the recursive walk of `CalculateDirSize` is
error-tolerant and never fails, so only its resulting sum matters), an
oracle for `os.RemoveAll` failures, and an oracle for subprocess
(non-zero-exit) failures.  Every clean function additionally returns the
ordered list of commands it invoked as subprocesses, so that frame
properties ("no command was ever run") are expressible.

Go string operations are modelled over the character list of a `String`
with structural recursion, mirroring `strings.Contains`,
`strings.TrimSpace`, `strings.ToLower` and `strings.Fields` byte-for-byte
on the ASCII marker strings the program uses.
-/

namespace DHell

/-- Drops leading whitespace characters, the one-sided half of Go's
`strings.TrimSpace`. -/
def trimLeftList (cs : List Char) : List Char :=
  match cs with
  | [] => []
  | c :: rest => if c.isWhitespace then trimLeftList rest else c :: rest

/-- Model of Go `strings.TrimSpace`: drops leading and trailing
whitespace. -/
def goTrimSpace (s : String) : String :=
  String.mk ((trimLeftList (trimLeftList s.data).reverse).reverse)

/-- Model of Go `strings.ToLower`, character by character. -/
def goToLower (s : String) : String :=
  String.mk (s.data.map Char.toLower)

/-- Helper for `goContains`: does `needle` occur contiguously inside the
second list? -/
def listContains (needle : List Char) : List Char → Bool
  | [] => needle.isPrefixOf []
  | c :: rest => needle.isPrefixOf (c :: rest) || listContains needle rest

/-- Model of Go `strings.Contains s sub`. -/
def goContains (s sub : String) : Bool :=
  listContains sub.data s.data

/-- Accumulator-style splitter behind `goFields`. -/
def goFieldsAux (acc : List Char) : List Char → List (List Char)
  | [] => if acc.isEmpty then [] else [acc.reverse]
  | c :: rest =>
    if c.isWhitespace then
      if acc.isEmpty then goFieldsAux [] rest
      else acc.reverse :: goFieldsAux [] rest
    else goFieldsAux (c :: acc) rest

/-- Model of Go `strings.Fields`: split around runs of whitespace, no
empty fields. -/
def goFields (s : String) : List String :=
  (goFieldsAux [] s.data).map String.mk

/-- Model of `filepath.Join` for the two-argument uses in the program. -/
def joinPath (a b : String) : String :=
  String.mk (a.data ++ '/' :: b.data)

/-- InstallSource, the closed enum from `internal/core/types.go` (Go
represents the five values as strings). -/
inductive InstallSource where
  | versionManager
  | homebrew
  | system
  | manual
  | unknown
deriving DecidableEq, Repr

/-- DiskUsageItem from `internal/core/types.go`. -/
structure DiskUsageItem where
  path : String
  description : String
  size : Int
deriving DecidableEq, Repr

/-- DiskUsage from `internal/core/types.go`. -/
structure DiskUsage where
  items : List DiskUsageItem
  total : Int
deriving DecidableEq, Repr

/-- CleanableItem from `internal/core/types.go`. -/
structure CleanableItem where
  path : String
  description : String
  size : Int
  command : String
  safe : Bool
deriving DecidableEq, Repr

/-- CleanResult from `internal/core/types.go`; the Go `[]error` is
modelled as a list of message strings. -/
structure CleanResult where
  itemsCleaned : Nat
  spaceReclaimed : Int
  errors : List String
deriving DecidableEq, Repr

/-- The ambient machine state: home directory (`os.UserHomeDir`, `none`
models a failed lookup), the set of existing filesystem paths
(`os.Stat` success), the byte total a recursive walk of a tree would
sum (`filepath.WalkDir` summing regular-file sizes, which are
non-negative), and the failure oracles for `os.RemoveAll` and for
subprocess invocations. -/
structure World where
  home : Option String
  existing : List String
  treeSize : String → Nat
  removeFails : String → Bool
  cmdFails : String → Bool

/-- ExpandHome from `internal/scanner/path.go`: expand a leading `~/` to
the home directory, returning the path unchanged when the home lookup
fails. -/
def ExpandHome (w : World) (path : String) : String :=
  if ['~', '/'].isPrefixOf path.data then
    match w.home with
    | none => path
    | some h => joinPath h (String.mk (path.data.drop 2))
  else path

/-- PathExists from `internal/scanner/path.go`: expand the home shorthand,
then test existence. -/
def PathExists (w : World) (path : String) : Bool :=
  w.existing.contains (ExpandHome w path)

/-- CalculateDirSize from `internal/scanner/disk.go`: expand the path; a
missing path yields size zero and no error; otherwise the error-tolerant
recursive walk sums the regular-file sizes of the tree (its per-entry
errors are all swallowed, so the walk itself never returns an error). -/
def CalculateDirSize (w : World) (path : String) : Int × Option String :=
  let expandedPath := ExpandHome w path
  if PathExists w expandedPath then ((w.treeSize expandedPath : Int), none)
  else (0, none)

/-- Model of `os.RemoveAll`: removing a non-existent path is a no-op that
succeeds; otherwise the failure oracle decides, and on success the path
and everything below it disappear. -/
def removeAllFS (w : World) (p : String) : World × Option String :=
  if w.existing.contains p then
    if w.removeFails p then (w, some "remove failed")
    else
      ({ w with existing :=
          w.existing.filter fun q => !(q == p || (p.data ++ ['/']).isPrefixOf q.data) },
        none)
  else (w, none)

/-- CleanDirectory from `internal/cleaner/cleaner.go`: expand the path; an
already-absent path is "already clean" (success); otherwise remove the
tree. -/
def CleanDirectory (w : World) (path : String) : World × Option String :=
  let expandedPath := ExpandHome w path
  if PathExists w expandedPath then removeAllFS w expandedPath
  else (w, none)

/-- RunCleanCommand from `internal/cleaner/cleaner.go`: split the command
string into fields, fail on an empty command, otherwise invoke the
subprocess (recorded in the returned trace) and report a non-zero exit
as an error. -/
def RunCleanCommand (w : World) (cmdStr : String) : Option String × List String :=
  if (goFields cmdStr).isEmpty then (some "empty command", [])
  else if w.cmdFails cmdStr then (some "command failed", [cmdStr])
  else (none, [cmdStr])

/-- ConfirmClean from `internal/cleaner/cleaner.go`.  The prompt and item
listing are terminal output; the returned decision depends only on the
line read from standard input (`none` models a read failure): the
answer is trimmed, lowercased and compared with "y" and "yes". -/
def ConfirmClean (items : List CleanableItem) (totalSize : Int)
    (input : Option String) : Bool :=
  match input with
  | none => false
  | some line =>
    let response := goToLower (goTrimSpace line)
    response == "y" || response == "yes"

/-- Per-item execution step of `CleanItems`: a command, if present, is
preferred; otherwise a non-empty path is removed; an item with neither
performs no action and succeeds.  Returns the per-item error, the
resulting world, and the subprocess invocations performed. -/
def cleanItemExec (w : World) (item : CleanableItem) :
    Option String × World × List String :=
  if item.command ≠ "" then
    let run := RunCleanCommand w item.command
    (run.1, w, run.2)
  else if item.path ≠ "" then
    let rm := CleanDirectory w item.path
    (rm.2, rm.1, [])
  else (none, w, [])

/-- Loop body of CleanItems from `internal/cleaner/cleaner.go`: in dry-run
mode every item is counted without action; otherwise a per-item failure
is appended to the errors and the item is skipped, and a per-item
success increments the counter and adds the item's size. -/
def cleanItemsRun : List CleanableItem → Bool → World →
    CleanResult × World × List String
  | [], _, _w => (⟨0, 0, []⟩, _w, [])
  | item :: rest, dryRun, w =>
    if dryRun then
      let res := cleanItemsRun rest dryRun w
      (⟨res.1.itemsCleaned + 1, item.size + res.1.spaceReclaimed, res.1.errors⟩,
        res.2.1, res.2.2)
    else
      let step := cleanItemExec w item
      match step.1 with
      | some e =>
        let res := cleanItemsRun rest false step.2.1
        (⟨res.1.itemsCleaned, res.1.spaceReclaimed,
            ("failed to clean " ++ item.description ++ ": " ++ e) :: res.1.errors⟩,
          res.2.1, step.2.2 ++ res.2.2)
      | none =>
        let res := cleanItemsRun rest false step.2.1
        (⟨res.1.itemsCleaned + 1, item.size + res.1.spaceReclaimed, res.1.errors⟩,
          res.2.1, step.2.2 ++ res.2.2)

/-- CleanItems from `internal/cleaner/cleaner.go`: runs the loop and
returns `(result, nil)` — the error component of the Go return value is
always `nil`. -/
def CleanItems (items : List CleanableItem) (dryRun : Bool) (w : World) :
    (CleanResult × Option String) × World × List String :=
  let res := cleanItemsRun items dryRun w
  ((res.1, none), res.2.1, res.2.2)

/-- Loop of GoProvider.Clean from `internal/providers/golang.go`: an item
with a command runs it through `sh -c` (failure recorded, item skipped);
every other item — and every successful one — is counted cleaned. -/
def goProviderCleanRun : List CleanableItem → World →
    CleanResult × World × List String
  | [], _w => (⟨0, 0, []⟩, _w, [])
  | item :: rest, w =>
    if item.command ≠ "" then
      if w.cmdFails item.command then
        let res := goProviderCleanRun rest w
        (⟨res.1.itemsCleaned, res.1.spaceReclaimed,
            ("failed to clean " ++ item.description) :: res.1.errors⟩,
          res.2.1, item.command :: res.2.2)
      else
        let res := goProviderCleanRun rest w
        (⟨res.1.itemsCleaned + 1, item.size + res.1.spaceReclaimed, res.1.errors⟩,
          res.2.1, item.command :: res.2.2)
    else
      let res := goProviderCleanRun rest w
      (⟨res.1.itemsCleaned + 1, item.size + res.1.spaceReclaimed, res.1.errors⟩,
        res.2.1, res.2.2)

/-- GoProvider.Clean: runs the loop and returns `(result, nil)`. -/
def GoProviderClean (items : List CleanableItem) (w : World) :
    (CleanResult × Option String) × World × List String :=
  let res := goProviderCleanRun items w
  ((res.1, none), res.2.1, res.2.2)

/-- Loop of NodeProvider.Clean from `internal/providers/nodejs.go`: a
non-empty command is split into fields and indexed at `parts[0]` with
no length guard before being invoked, so a command that is non-empty
but all whitespace makes the program panic (index out of range) —
modelled as `none`, no value returned at all; otherwise the same
subprocess-failure oracle as the Go provider governs the invocation. -/
def nodeProviderCleanRun : List CleanableItem → World →
    Option (CleanResult × World × List String)
  | [], _w => some (⟨0, 0, []⟩, _w, [])
  | item :: rest, w =>
    if item.command ≠ "" then
      if (goFields item.command).isEmpty then none
      else if w.cmdFails item.command then
        match nodeProviderCleanRun rest w with
        | none => none
        | some res =>
          some (⟨res.1.itemsCleaned, res.1.spaceReclaimed,
              ("failed to clean " ++ item.description) :: res.1.errors⟩,
            res.2.1, item.command :: res.2.2)
      else
        match nodeProviderCleanRun rest w with
        | none => none
        | some res =>
          some (⟨res.1.itemsCleaned + 1, item.size + res.1.spaceReclaimed,
              res.1.errors⟩,
            res.2.1, item.command :: res.2.2)
    else
      match nodeProviderCleanRun rest w with
      | none => none
      | some res =>
        some (⟨res.1.itemsCleaned + 1, item.size + res.1.spaceReclaimed,
            res.1.errors⟩,
          res.2.1, res.2.2)

/-- NodeProvider.Clean: runs the loop and returns `(result, nil)` when
the loop completes; a panic mid-loop returns nothing at all. -/
def NodeProviderClean (items : List CleanableItem) (w : World) :
    Option ((CleanResult × Option String) × World × List String) :=
  (nodeProviderCleanRun items w).map fun res => ((res.1, none), res.2.1, res.2.2)

/-- An item whose command is non-empty but all whitespace: the shape on
which the Node clean's unguarded field indexing panics. -/
def blankCmdItem : CleanableItem :=
  { path := "", description := "Blank", size := 9, command := " ", safe := true }

/-- Loop of JavaProvider.Clean from `internal/providers/java.go`: an item
with a path has the expanded path removed (failure recorded, item
skipped); items without a path — commands included — are counted
cleaned without any action.  No subprocess is ever invoked. -/
def javaProviderCleanRun : List CleanableItem → World →
    CleanResult × World × List String
  | [], _w => (⟨0, 0, []⟩, _w, [])
  | item :: rest, w =>
    if item.path ≠ "" then
      let rm := removeAllFS w (ExpandHome w item.path)
      match rm.2 with
      | some e =>
        let res := javaProviderCleanRun rest rm.1
        (⟨res.1.itemsCleaned, res.1.spaceReclaimed,
            ("failed to clean " ++ item.description ++ ": " ++ e) :: res.1.errors⟩,
          res.2.1, res.2.2)
      | none =>
        let res := javaProviderCleanRun rest rm.1
        (⟨res.1.itemsCleaned + 1, item.size + res.1.spaceReclaimed, res.1.errors⟩,
          res.2.1, res.2.2)
    else
      let res := javaProviderCleanRun rest w
      (⟨res.1.itemsCleaned + 1, item.size + res.1.spaceReclaimed, res.1.errors⟩,
        res.2.1, res.2.2)

/-- JavaProvider.Clean: runs the loop and returns `(result, nil)`. -/
def JavaProviderClean (items : List CleanableItem) (w : World) :
    (CleanResult × Option String) × World × List String :=
  let res := javaProviderCleanRun items w
  ((res.1, none), res.2.1, res.2.2)

/-- Loop of PythonProvider.Clean from `internal/providers/python.go`: an
item with a command does NOT invoke it; when the command splits into at
least one field the provider instead removes the item's (expanded) path
with `os.RemoveAll` — a no-op for the empty path its curated items
carry.  No subprocess is ever invoked. -/
def pythonProviderCleanRun : List CleanableItem → World →
    CleanResult × World × List String
  | [], _w => (⟨0, 0, []⟩, _w, [])
  | item :: rest, w =>
    if item.command ≠ "" then
      if (goFields item.command).length > 0 then
        let rm := removeAllFS w (ExpandHome w item.path)
        match rm.2 with
        | some e =>
          let res := pythonProviderCleanRun rest rm.1
          (⟨res.1.itemsCleaned, res.1.spaceReclaimed,
              ("failed to clean " ++ item.description ++ ": " ++ e) :: res.1.errors⟩,
            res.2.1, res.2.2)
        | none =>
          let res := pythonProviderCleanRun rest rm.1
          (⟨res.1.itemsCleaned + 1, item.size + res.1.spaceReclaimed, res.1.errors⟩,
            res.2.1, res.2.2)
      else
        let res := pythonProviderCleanRun rest w
        (⟨res.1.itemsCleaned + 1, item.size + res.1.spaceReclaimed, res.1.errors⟩,
          res.2.1, res.2.2)
    else
      let res := pythonProviderCleanRun rest w
      (⟨res.1.itemsCleaned + 1, item.size + res.1.spaceReclaimed, res.1.errors⟩,
        res.2.1, res.2.2)

/-- PythonProvider.Clean: runs the loop and returns `(result, nil)`. -/
def PythonProviderClean (items : List CleanableItem) (w : World) :
    (CleanResult × Option String) × World × List String :=
  let res := pythonProviderCleanRun items w
  ((res.1, none), res.2.1, res.2.2)

/-- Loop of PHPProvider.Clean: an item with a command does NOT invoke it;
only when the item also carries a non-empty path is that (expanded)
path removed.  Every non-failing item is counted cleaned.  No
subprocess is ever invoked. -/
def phpProviderCleanRun : List CleanableItem → World →
    CleanResult × World × List String
  | [], _w => (⟨0, 0, []⟩, _w, [])
  | item :: rest, w =>
    if item.command ≠ "" then
      if item.path ≠ "" then
        let rm := removeAllFS w (ExpandHome w item.path)
        match rm.2 with
        | some e =>
          let res := phpProviderCleanRun rest rm.1
          (⟨res.1.itemsCleaned, res.1.spaceReclaimed,
              ("failed to clean " ++ item.description ++ ": " ++ e) :: res.1.errors⟩,
            res.2.1, res.2.2)
        | none =>
          let res := phpProviderCleanRun rest rm.1
          (⟨res.1.itemsCleaned + 1, item.size + res.1.spaceReclaimed, res.1.errors⟩,
            res.2.1, res.2.2)
      else
        let res := phpProviderCleanRun rest w
        (⟨res.1.itemsCleaned + 1, item.size + res.1.spaceReclaimed, res.1.errors⟩,
          res.2.1, res.2.2)
    else
      let res := phpProviderCleanRun rest w
      (⟨res.1.itemsCleaned + 1, item.size + res.1.spaceReclaimed, res.1.errors⟩,
        res.2.1, res.2.2)

/-- PHPProvider.Clean: runs the loop and returns `(result, nil)`. -/
def PHPProviderClean (items : List CleanableItem) (w : World) :
    (CleanResult × Option String) × World × List String :=
  let res := phpProviderCleanRun items w
  ((res.1, none), res.2.1, res.2.2)

/-- Loop of RustProvider.Clean: a non-empty path is removed first; only an
item without a path but with a command invokes it through `sh -c`. -/
def rustProviderCleanRun : List CleanableItem → World →
    CleanResult × World × List String
  | [], _w => (⟨0, 0, []⟩, _w, [])
  | item :: rest, w =>
    if item.path ≠ "" then
      let rm := removeAllFS w (ExpandHome w item.path)
      match rm.2 with
      | some e =>
        let res := rustProviderCleanRun rest rm.1
        (⟨res.1.itemsCleaned, res.1.spaceReclaimed,
            ("failed to clean " ++ item.description ++ ": " ++ e) :: res.1.errors⟩,
          res.2.1, res.2.2)
      | none =>
        let res := rustProviderCleanRun rest rm.1
        (⟨res.1.itemsCleaned + 1, item.size + res.1.spaceReclaimed, res.1.errors⟩,
          res.2.1, res.2.2)
    else if item.command ≠ "" then
      if w.cmdFails item.command then
        let res := rustProviderCleanRun rest w
        (⟨res.1.itemsCleaned, res.1.spaceReclaimed,
            ("failed to clean " ++ item.description) :: res.1.errors⟩,
          res.2.1, item.command :: res.2.2)
      else
        let res := rustProviderCleanRun rest w
        (⟨res.1.itemsCleaned + 1, item.size + res.1.spaceReclaimed, res.1.errors⟩,
          res.2.1, item.command :: res.2.2)
    else
      let res := rustProviderCleanRun rest w
      (⟨res.1.itemsCleaned + 1, item.size + res.1.spaceReclaimed, res.1.errors⟩,
        res.2.1, res.2.2)

/-- RustProvider.Clean: runs the loop and returns `(result, nil)`. -/
def RustProviderClean (items : List CleanableItem) (w : World) :
    (CleanResult × Option String) × World × List String :=
  let res := rustProviderCleanRun items w
  ((res.1, none), res.2.1, res.2.2)

/-- Abstract view of one provider as the clean orchestrator sees it: its
name, the outcome of `GetCleanableItems` (a measurement that cannot
mutate the world), and its `Clean` implementation. -/
structure ProviderModel where
  name : String
  itemsResult : Except String (List CleanableItem)
  cleanFn : List CleanableItem → World →
    (CleanResult × Option String) × World × List String

/-- Outcome of one `cleanProvider` invocation from `cmd/clean.go`. -/
inductive CleanOutcome where
  | itemsError (msg : String)
  | nothingToClean
  | previewShown
  | cancelled
  | cleanFailed (msg : String)
  | cleaned (r : CleanResult)
deriving DecidableEq, Repr

/-- cleanProvider from `cmd/clean.go`, the clean orchestrator: fetch the
cleanable items (an error or an empty list stops early); compute the
total size; in dry-run mode render a preview and stop; otherwise,
unless forced, require confirmation (the unsafe-item warning is
terminal output only); then invoke the provider's `Clean`.  Returns the
outcome, the resulting world, the subprocess invocations performed, and
whether the provider's `Clean` was invoked. -/
def cleanProvider (p : ProviderModel) (dryRun force : Bool)
    (input : Option String) (w : World) :
    CleanOutcome × World × List String × Bool :=
  match p.itemsResult with
  | .error e => (.itemsError e, w, [], false)
  | .ok items =>
    if items.length = 0 then (.nothingToClean, w, [], false)
    else
      let totalSize := items.foldl (fun acc it => acc + it.size) 0
      if dryRun then (.previewShown, w, [], false)
      else if force = false ∧ ConfirmClean items totalSize input = false then
        (.cancelled, w, [], false)
      else
        let res := p.cleanFn items w
        match res.1.2 with
        | some e => (.cleanFailed e, res.2.1, res.2.2, true)
        | none => (.cleaned res.1.1, res.2.1, res.2.2, true)

/-- GoProvider.GetGlobalCacheUsage from `internal/providers/golang.go`:
measure GOROOT, GOCACHE and GOMODCACHE (falling back to GOPATH/pkg/mod)
when set and existing, then total the items.  `goEnv` is the oracle for
`go env` lookups (with the OS-environment fallback folded in). -/
def GoGetGlobalCacheUsage (w : World) (goEnv : String → String) : DiskUsage :=
  let goroot := goEnv "GOROOT"
  let items1 : List DiskUsageItem :=
    if goroot ≠ "" ∧ PathExists w goroot then
      [⟨goroot, "SDK", (CalculateDirSize w goroot).1⟩]
    else []
  let gocache := goEnv "GOCACHE"
  let items2 : List DiskUsageItem :=
    if gocache ≠ "" ∧ PathExists w gocache then
      items1 ++ [⟨gocache, "Build Cache", (CalculateDirSize w gocache).1⟩]
    else items1
  let gomodcache0 := goEnv "GOMODCACHE"
  let gomodcache :=
    if gomodcache0 = "" then
      let gopath := goEnv "GOPATH"
      if gopath ≠ "" then gopath ++ "/pkg/mod" else gomodcache0
    else gomodcache0
  let items3 : List DiskUsageItem :=
    if gomodcache ≠ "" ∧ PathExists w gomodcache then
      items2 ++ [⟨gomodcache, "Module Cache", (CalculateDirSize w gomodcache).1⟩]
    else items2
  ⟨items3, items3.foldl (fun acc it => acc + it.size) 0⟩

/-- RustProvider.GetGlobalCacheUsage: measure the three well-known cargo
and rustup locations when they exist, then total the items. -/
def RustGetGlobalCacheUsage (w : World) : DiskUsage :=
  let items1 : List DiskUsageItem :=
    if PathExists w "~/.rustup/toolchains" then
      [⟨"~/.rustup/toolchains", "Rustup Toolchains",
          (CalculateDirSize w "~/.rustup/toolchains").1⟩]
    else []
  let items2 : List DiskUsageItem :=
    if PathExists w "~/.cargo/registry" then
      items1 ++ [⟨"~/.cargo/registry", "Cargo Registry",
          (CalculateDirSize w "~/.cargo/registry").1⟩]
    else items1
  let items3 : List DiskUsageItem :=
    if PathExists w "~/.cargo/git" then
      items2 ++ [⟨"~/.cargo/git", "Cargo Git Checkouts",
          (CalculateDirSize w "~/.cargo/git").1⟩]
    else items2
  ⟨items3, items3.foldl (fun acc it => acc + it.size) 0⟩

/-- GoProvider.determineSource from `internal/providers/golang.go`. -/
def goDetermineSource (path : String) : InstallSource :=
  if goContains path ".goenv" then .versionManager
  else if goContains path "/opt/homebrew" || goContains path "/usr/local/Cellar" then
    .homebrew
  else if goContains path "/usr/local/go" then .manual
  else .unknown

/-- NodeProvider.determineSource from `internal/providers/nodejs.go`. -/
def nodeDetermineSource (path : String) : InstallSource :=
  if goContains path ".nvm" then .versionManager
  else if goContains path ".volta" then .versionManager
  else if goContains path "/opt/homebrew" || goContains path "/usr/local/Cellar" then
    .homebrew
  else .unknown

/-- JavaProvider.determineSource: also consults the JAVA_HOME environment
variable for the sdkman marker. -/
def javaDetermineSource (javaHome path : String) : InstallSource :=
  if goContains path ".sdkman" || goContains javaHome ".sdkman" then .versionManager
  else if goContains path "/opt/homebrew" || goContains path "/usr/local/Cellar" then
    .homebrew
  else if goContains path "/Library/Java" then .manual
  else .unknown

/-- One classification rule, modelled from the spec: a predicate over the
path paired with the resulting source. -/
structure SourceRule where
  applies : String → Bool
  source : InstallSource

/-- Modelled from the spec: evaluate an ordered rule list top to bottom;
the first matching predicate wins and no match yields Unknown. -/
def evalSourceRules : List SourceRule → String → InstallSource
  | [], _ => .unknown
  | r :: rs, p => if r.applies p then r.source else evalSourceRules rs p

/-- The Go provider's ordered rule list, as data. -/
def goSourceRules : List SourceRule :=
  [⟨fun p => goContains p ".goenv", .versionManager⟩,
    ⟨fun p => goContains p "/opt/homebrew" || goContains p "/usr/local/Cellar", .homebrew⟩,
    ⟨fun p => goContains p "/usr/local/go", .manual⟩]

/-- The Node provider's ordered rule list, as data. -/
def nodeSourceRules : List SourceRule :=
  [⟨fun p => goContains p ".nvm", .versionManager⟩,
    ⟨fun p => goContains p ".volta", .versionManager⟩,
    ⟨fun p => goContains p "/opt/homebrew" || goContains p "/usr/local/Cellar", .homebrew⟩]

/-- The Java provider's ordered rule list (parameterised by the JAVA_HOME
signal), as data. -/
def javaSourceRules (javaHome : String) : List SourceRule :=
  [⟨fun p => goContains p ".sdkman" || goContains javaHome ".sdkman", .versionManager⟩,
    ⟨fun p => goContains p "/opt/homebrew" || goContains p "/usr/local/Cellar", .homebrew⟩,
    ⟨fun p => goContains p "/Library/Java", .manual⟩]

/-- Sequential application of index-addressed slot writes, the effect of
the goroutines in `scanProviders` (`cmd/scan.go`) writing
`results[index] = scanProvider(p)` in whatever order they complete. -/
def writeSlots {β : Type} (init : List β) : List (Nat × β) → List β
  | [] => init
  | iv :: rest => writeSlots (init.set iv.1 iv.2) rest

/-- scanProviders from `cmd/scan.go`: a pre-sized result slice
(`make([]ScanResult, len(providers))`, all slots the zero value) is
filled by one task per provider, each writing `f provider` into its own
index; `order` is the order in which the concurrent tasks happen to
complete, and `wg.Wait()` means the caller sees the slice only after
all writes.  The per-provider pipeline `scanProvider` is pure I/O and
is abstracted as `f`. -/
def scanProviders {α β : Type} (f : α → β) (dflt : β) (ps : List α)
    (order : List Nat) : List β :=
  writeSlots (List.replicate ps.length dflt)
    (order.filterMap fun i => (ps[i]?).map fun p => (i, f p))

/-- Derived instrumentation of the `CleanItems` loop: the per-item
success flag (`true` when the item's execution step produced no error),
in item order, threading the world exactly as the loop does. -/
def cleanSuccessFlags : List CleanableItem → World → List Bool
  | [], _ => []
  | item :: rest, w =>
    let step := cleanItemExec w item
    step.1.isNone :: cleanSuccessFlags rest step.2.1

/-- Sum of the sizes of exactly the items whose flag is `true`. -/
def flaggedSizeSum : List CleanableItem → List Bool → Int
  | [], _ => 0
  | _, [] => 0
  | item :: rest, b :: bs => (if b then item.size else 0) + flaggedSizeSum rest bs

/-- An item carrying neither a command nor a path. -/
def neutralItem : CleanableItem :=
  { path := "", description := "Nothing", size := 7, command := "", safe := true }

/-- A path-driven item with a recorded size, for the repeated-clean
scenario. -/
def modCacheItem : CleanableItem :=
  { path := "/tmp/modcache", description := "Module Cache", size := 100
    command := "", safe := true }

/-- A world in which `modCacheItem`'s path actually exists. -/
def modCacheWorld : World :=
  { home := none, existing := ["/tmp/modcache"], treeSize := fun _ => 100
    removeFails := fun _ => false, cmdFails := fun _ => false }

/-- The PHP provider's curated item shape: a command, no path. -/
def composerItem : CleanableItem :=
  { path := "", description := "Composer Cache", size := 50
    command := "composer clear-cache", safe := true }

/-- A hostile world in which every subprocess and every removal would
fail, to show that a clean that reports no error ran neither. -/
def strictWorld : World :=
  { home := none, existing := ["/srv/data"], treeSize := fun _ => 50
    removeFails := fun _ => true, cmdFails := fun _ => true }

/-- A command-plus-path item, the shape that makes the PHP clean delete
the path. -/
def phpPathItem : CleanableItem :=
  { path := "/srv/data", description := "Composer Cache", size := 50
    command := "composer clear-cache", safe := true }

/-- A command-plus-path item for the Python clean. -/
def pipPathItem : CleanableItem :=
  { path := "/srv/data", description := "Pip Cache", size := 25
    command := "pip cache purge", safe := true }

/-- A benign world in which `/srv/data` exists and removal succeeds but
every subprocess would fail. -/
def phpWorld : World :=
  { home := none, existing := ["/srv/data"], treeSize := fun _ => 50
    removeFails := fun _ => false, cmdFails := fun _ => true }

/-- A provider model whose enumeration is empty. -/
def emptyGoProviderModel : ProviderModel :=
  { name := "Golang", itemsResult := Except.ok [], cleanFn := GoProviderClean }

/-- A world with the cargo registry present under a real home. -/
def cargoWorld : World :=
  { home := some "/home/dev", existing := ["/home/dev/.cargo/registry"]
    treeSize := fun _ => 200, removeFails := fun _ => false
    cmdFails := fun _ => false }

/-- Witness for C1: a concrete provider with one unsafe item, dry-run,
no force, no input: the world survives unchanged and only the preview
outcome is produced. -/
def witnessWorld : World :=
  { home := some "/home/dev"
    existing := ["/home/dev/.m2/repository"]
    treeSize := fun _ => 512
    removeFails := fun _ => false
    cmdFails := fun _ => false }

/-- A concrete unsafe path-driven item (the Maven repository shape). -/
def mavenItem : CleanableItem :=
  { path := "~/.m2/repository", description := "Maven Repository"
    size := 512, command := "", safe := false }

/-- A concrete provider model built over `mavenItem` and the Java
provider's clean implementation. -/
def javaProviderModel : ProviderModel :=
  { name := "Java", itemsResult := Except.ok [mavenItem]
    cleanFn := JavaProviderClean }

/-- A concrete path carrying both the version-manager marker and the
Homebrew marker. -/
def dualMarkerGoPath : String := "/Users/dev/.goenv/versions/opt/homebrew/bin/go"

/-- The Node analogue of `dualMarkerGoPath`. -/
def dualMarkerNodePath : String := "/Users/dev/.nvm/versions/opt/homebrew/bin/node"

/-- A world with an empty filesystem and no home directory. -/
def emptyWorld : World :=
  { home := none, existing := [], treeSize := fun _ => 0
    removeFails := fun _ => false, cmdFails := fun _ => false }


/-- Folding `+ size` over disk-usage items, as the Go total loops do,
computes the sum of the sizes. -/
theorem foldl_size_eq_sum (l : List DiskUsageItem) (a : Int) :
    l.foldl (fun acc it => acc + it.size) a = a + (l.map (·.size)).sum := by
  induction l generalizing a with
  | nil => simp
  | cons it rest ih => simp [ih, add_assoc]

/-- A measured directory size is never negative: the walk sums
non-negative regular-file sizes, and a missing path measures zero. -/
theorem calculateDirSize_nonneg (w : World) (p : String) :
    0 ≤ (CalculateDirSize w p).1 := by
  by_cases h : PathExists w (ExpandHome w p) <;> simp [CalculateDirSize, h]

/-- C1: with the dry-run flag set, `cleanProvider` leaves the world
untouched, runs no subprocess, never invokes the provider's clean
operation — whatever the items, their count or their safe flags — and,
whenever items were actually fetched, only renders the preview. -/
theorem clean_dry_run_frame (p : ProviderModel) (force : Bool)
    (input : Option String) (w : World) :
    (cleanProvider p true force input w).2.1 = w ∧
    (cleanProvider p true force input w).2.2.1 = [] ∧
    (cleanProvider p true force input w).2.2.2 = false ∧
    (∀ items, p.itemsResult = Except.ok items → items.length ≠ 0 →
      (cleanProvider p true force input w).1 = CleanOutcome.previewShown) := by
  cases hp : p.itemsResult with
  | error e => simp [cleanProvider, hp]
  | ok items =>
    by_cases hlen : items.length = 0
    · rw [List.length_eq_zero] at hlen
      subst hlen
      simp [cleanProvider, hp]
    · simp [cleanProvider, hp, hlen]

theorem clean_dry_run_frame_witness :
    (cleanProvider javaProviderModel true false none witnessWorld).2.1 = witnessWorld ∧
    (cleanProvider javaProviderModel true false none witnessWorld).2.2.2 = false ∧
    (cleanProvider javaProviderModel true false none witnessWorld).1 =
      CleanOutcome.previewShown := by
  refine ⟨(clean_dry_run_frame javaProviderModel false none witnessWorld).1,
    (clean_dry_run_frame javaProviderModel false none witnessWorld).2.2.1,
    (clean_dry_run_frame javaProviderModel false none witnessWorld).2.2.2
      [mavenItem] rfl (by decide)⟩

/-- C2: the confirmation gate accepts exactly a trimmed, lowercased "y"
or "yes"; a read failure declines; and a declined confirmation (without
the force flag) stops the orchestrator with no world change, no
subprocess, and no invocation of the provider's clean operation. -/
theorem confirm_gate :
    (∀ (items : List CleanableItem) (total : Int) (s : String),
      ConfirmClean items total (some s) = true ↔
        goToLower (goTrimSpace s) = "y" ∨ goToLower (goTrimSpace s) = "yes") ∧
    (∀ (items : List CleanableItem) (total : Int),
      ConfirmClean items total none = false) ∧
    ConfirmClean [] 0 (some "n") = false ∧
    ConfirmClean [] 0 (some "yes please") = false ∧
    ConfirmClean [] 0 (some "") = false ∧
    ConfirmClean [] 0 (some " YES\n") = true ∧
    (∀ (p : ProviderModel) (input : Option String) (w : World),
      (∀ (items : List CleanableItem) (total : Int),
          ConfirmClean items total input = false) →
      (cleanProvider p false false input w).2.1 = w ∧
      (cleanProvider p false false input w).2.2.1 = [] ∧
      (cleanProvider p false false input w).2.2.2 = false ∧
      (∀ items, p.itemsResult = Except.ok items → items.length ≠ 0 →
        (cleanProvider p false false input w).1 = CleanOutcome.cancelled)) := by
  refine ⟨?_, ?_, by decide, by decide, by decide, by decide, ?_⟩
  · intro items total s
    simp [ConfirmClean]
  · intro items total
    rfl
  · intro p input w hin
    cases hp : p.itemsResult with
    | error e => simp [cleanProvider, hp]
    | ok items =>
      by_cases hlen : items.length = 0
      · rw [List.length_eq_zero] at hlen
        subst hlen
        simp [cleanProvider, hp]
      · simp [cleanProvider, hp, hlen, hin]

/-- Witness for C2: the literal decline scenarios "n", "yes please", "",
and a read failure all stop the orchestrator on a concrete provider. -/
theorem confirm_gate_witness :
    (cleanProvider javaProviderModel false false (some "n") witnessWorld).2.1 =
        witnessWorld ∧
    (cleanProvider javaProviderModel false false (some "n") witnessWorld).1 =
        CleanOutcome.cancelled ∧
    (cleanProvider javaProviderModel false false (some "yes please") witnessWorld).2.2.2 =
        false ∧
    (cleanProvider javaProviderModel false false (some "") witnessWorld).2.2.2 = false ∧
    (cleanProvider javaProviderModel false false none witnessWorld).2.2.2 = false := by
  refine ⟨(confirm_gate.2.2.2.2.2.2 javaProviderModel (some "n") witnessWorld
      (fun _ _ => rfl)).1,
    (confirm_gate.2.2.2.2.2.2 javaProviderModel (some "n") witnessWorld
      (fun _ _ => rfl)).2.2.2 [mavenItem] rfl (by decide),
    (confirm_gate.2.2.2.2.2.2 javaProviderModel (some "yes please") witnessWorld
      (fun _ _ => rfl)).2.2.1,
    (confirm_gate.2.2.2.2.2.2 javaProviderModel (some "") witnessWorld
      (fun _ _ => rfl)).2.2.1,
    (confirm_gate.2.2.2.2.2.2 javaProviderModel none witnessWorld
      (fun _ _ => rfl)).2.2.1⟩

/-- C7: every provider's source classifier is exactly the top-to-bottom,
first-match-wins evaluation of its ordered rule list (so it is a
deterministic pure function of the path, plus JAVA_HOME for Java); a
path carrying the version-manager marker takes the earlier-listed rule
even when a Homebrew marker is also present, and a path matching no
rule is Unknown. -/
theorem source_rules_first_match :
    (∀ p, goDetermineSource p = evalSourceRules goSourceRules p) ∧
    (∀ p, nodeDetermineSource p = evalSourceRules nodeSourceRules p) ∧
    (∀ jh p, javaDetermineSource jh p = evalSourceRules (javaSourceRules jh) p) ∧
    (∀ p, goContains p ".goenv" = true →
      goDetermineSource p = InstallSource.versionManager) ∧
    (∀ p, goContains p ".nvm" = true →
      nodeDetermineSource p = InstallSource.versionManager) ∧
    (∀ p, goContains p ".goenv" = false → goContains p "/opt/homebrew" = false →
      goContains p "/usr/local/Cellar" = false → goContains p "/usr/local/go" = false →
      goDetermineSource p = InstallSource.unknown) := by
  refine ⟨fun p => rfl, fun p => rfl, fun jh p => rfl, ?_, ?_, ?_⟩
  · intro p h
    simp [goDetermineSource, h]
  · intro p h
    simp [nodeDetermineSource, h]
  · intro p h1 h2 h3 h4
    simp [goDetermineSource, h1, h2, h3, h4]

/-- Witness for C7: on the dual-marker paths the earlier-listed
version-manager rule wins, and a plain system path matches no rule. -/
theorem source_rules_first_match_witness :
    goContains dualMarkerGoPath ".goenv" = true ∧
    goContains dualMarkerGoPath "/opt/homebrew" = true ∧
    goDetermineSource dualMarkerGoPath = InstallSource.versionManager ∧
    goContains dualMarkerNodePath ".nvm" = true ∧
    goContains dualMarkerNodePath "/opt/homebrew" = true ∧
    nodeDetermineSource dualMarkerNodePath = InstallSource.versionManager ∧
    goDetermineSource "/usr/bin/go" = InstallSource.unknown := by
  refine ⟨by decide, by decide,
    source_rules_first_match.2.2.2.1 dualMarkerGoPath (by decide),
    by decide, by decide,
    source_rules_first_match.2.2.2.2.1 dualMarkerNodePath (by decide),
    source_rules_first_match.2.2.2.2.2 "/usr/bin/go"
      (by decide) (by decide) (by decide) (by decide)⟩

/-- C8: a path that does not exist after home expansion measures as zero
bytes with no error — absence is a valid state, not a fault. -/
theorem calculateDirSize_absent_zero (w : World) (path : String)
    (h : PathExists w (ExpandHome w path) = false) :
    CalculateDirSize w path = (0, none) := by
  simp [CalculateDirSize, h]

/-- Witness for C8: a concrete empty filesystem measures a missing
home-relative path as zero without error. -/
theorem calculateDirSize_absent_zero_witness :
    PathExists emptyWorld (ExpandHome emptyWorld "~/missing") = false ∧
    CalculateDirSize emptyWorld "~/missing" = (0, none) :=
  ⟨rfl, calculateDirSize_absent_zero emptyWorld "~/missing" rfl⟩

/-- Per-item characterisation of the non-dry-run `CleanItems` loop:
counters and flags agree, and the reclaimed space is the flagged sum. -/
theorem cleanItemsRun_flags (items : List CleanableItem) (w : World) :
    (cleanItemsRun items false w).1.itemsCleaned =
        (cleanSuccessFlags items w).count true ∧
    (cleanItemsRun items false w).1.errors.length =
        (cleanSuccessFlags items w).count false ∧
    (cleanItemsRun items false w).1.spaceReclaimed =
        flaggedSizeSum items (cleanSuccessFlags items w) ∧
    (cleanSuccessFlags items w).length = items.length := by
  induction items generalizing w with
  | nil => simp [cleanItemsRun, cleanSuccessFlags, flaggedSizeSum]
  | cons item rest ih =>
    cases h : (cleanItemExec w item).1 with
    | none =>
      have hr := ih (cleanItemExec w item).2.1
      simp [cleanItemsRun, cleanSuccessFlags, flaggedSizeSum, h, hr.1, hr.2.1,
        hr.2.2.1, hr.2.2.2, List.count_cons]
    | some e =>
      have hr := ih (cleanItemExec w item).2.1
      simp [cleanItemsRun, cleanSuccessFlags, flaggedSizeSum, h, hr.1, hr.2.1,
        hr.2.2.1, hr.2.2.2, List.count_cons]

/-- Accounting of the Go provider's clean loop: every item is counted
exactly once, as a success or as an error. -/
theorem goProviderCleanRun_accounting (items : List CleanableItem) (w : World) :
    (goProviderCleanRun items w).1.itemsCleaned +
      (goProviderCleanRun items w).1.errors.length = items.length := by
  induction items generalizing w with
  | nil => simp [goProviderCleanRun]
  | cons item rest ih =>
    have hr := ih w
    by_cases hc : item.command = "" <;>
      by_cases hf : w.cmdFails item.command = true <;>
        simp [goProviderCleanRun, hc, hf] <;> omega

/-- Soundness of the Node provider's clean loop away from the panic
input: when every command-carrying item's command has at least one
field, the loop returns a result with full per-item accounting and an
invocation trace of exactly the command-carrying items' commands. -/
theorem nodeProviderCleanRun_sound (items : List CleanableItem) (w : World)
    (h : ∀ it ∈ items, it.command ≠ "" → (goFields it.command).isEmpty = false) :
    ∃ r wo t, nodeProviderCleanRun items w = some (r, wo, t) ∧
      r.itemsCleaned + r.errors.length = items.length ∧
      t = (items.filter fun it => it.command != "").map (·.command) := by
  induction items generalizing w with
  | nil => exact ⟨⟨0, 0, []⟩, w, [], rfl, rfl, rfl⟩
  | cons item rest ih =>
    obtain ⟨r, wo, t, hres, hacc, htr⟩ :=
      ih w (fun it hit => h it (List.mem_cons_of_mem _ hit))
    by_cases hc : item.command = ""
    · refine ⟨⟨r.itemsCleaned + 1, item.size + r.spaceReclaimed, r.errors⟩,
        wo, t, ?_, ?_, ?_⟩
      · simp [nodeProviderCleanRun, hc, hres]
      · simp only [List.length_cons]
        omega
      · simp [List.filter_cons, hc, htr]
    · have hf := h item (List.mem_cons_self _ _) hc
      by_cases hcf : w.cmdFails item.command = true
      · refine ⟨⟨r.itemsCleaned, r.spaceReclaimed,
            ("failed to clean " ++ item.description) :: r.errors⟩,
          wo, item.command :: t, ?_, ?_, ?_⟩
        · simp [nodeProviderCleanRun, hc, hf, hcf, hres]
        · simp only [List.length_cons]
          omega
        · simp [List.filter_cons, hc, htr]
      · refine ⟨⟨r.itemsCleaned + 1, item.size + r.spaceReclaimed, r.errors⟩,
          wo, item.command :: t, ?_, ?_, ?_⟩
        · simp [nodeProviderCleanRun, hc, hf, hcf, hres]
        · simp only [List.length_cons]
          omega
        · simp [List.filter_cons, hc, htr]

/-- The Node provider's clean loop panics — returns nothing at all — as
soon as it reaches an item whose command is non-empty but splits into
zero fields. -/
theorem nodeProviderCleanRun_panic (item : CleanableItem)
    (rest : List CleanableItem) (w : World) (hc : item.command ≠ "")
    (hf : (goFields item.command).isEmpty = true) :
    nodeProviderCleanRun (item :: rest) w = none := by
  simp [nodeProviderCleanRun, hc, hf]

/-- A failed Node invocation is recorded as a per-item failure and the
item is skipped, the loop continuing over the rest. -/
theorem nodeProviderCleanRun_failure_record (item : CleanableItem)
    (rest : List CleanableItem) (w : World) (hc : item.command ≠ "")
    (hf : (goFields item.command).isEmpty = false)
    (hcf : w.cmdFails item.command = true) :
    nodeProviderCleanRun (item :: rest) w =
      (nodeProviderCleanRun rest w).map fun res =>
        (⟨res.1.itemsCleaned, res.1.spaceReclaimed,
            ("failed to clean " ++ item.description) :: res.1.errors⟩,
          res.2.1, item.command :: res.2.2) := by
  cases hres : nodeProviderCleanRun rest w <;>
    simp [nodeProviderCleanRun, hc, hf, hcf, hres]

/-- Accounting of the Java provider's clean loop. -/
theorem javaProviderCleanRun_accounting (items : List CleanableItem) (w : World) :
    (javaProviderCleanRun items w).1.itemsCleaned +
      (javaProviderCleanRun items w).1.errors.length = items.length := by
  induction items generalizing w with
  | nil => simp [javaProviderCleanRun]
  | cons item rest ih =>
    have hr := ih w
    have hr2 := ih (removeAllFS w (ExpandHome w item.path)).1
    by_cases hp : item.path = ""
    · simp [javaProviderCleanRun, hp]
      omega
    · cases h : (removeAllFS w (ExpandHome w item.path)).2 <;>
        simp [javaProviderCleanRun, hp, h] <;> omega

/-- Accounting of the Python provider's clean loop. -/
theorem pythonProviderCleanRun_accounting (items : List CleanableItem) (w : World) :
    (pythonProviderCleanRun items w).1.itemsCleaned +
      (pythonProviderCleanRun items w).1.errors.length = items.length := by
  induction items generalizing w with
  | nil => simp [pythonProviderCleanRun]
  | cons item rest ih =>
    have hr := ih w
    have hr2 := ih (removeAllFS w (ExpandHome w item.path)).1
    by_cases hc : item.command = ""
    · simp [pythonProviderCleanRun, hc]
      omega
    · by_cases hn : (goFields item.command).length > 0
      · cases h : (removeAllFS w (ExpandHome w item.path)).2 <;>
          simp [pythonProviderCleanRun, hc, hn, h] <;> omega
      · simp [pythonProviderCleanRun, hc, hn]
        omega

/-- Accounting of the PHP provider's clean loop. -/
theorem phpProviderCleanRun_accounting (items : List CleanableItem) (w : World) :
    (phpProviderCleanRun items w).1.itemsCleaned +
      (phpProviderCleanRun items w).1.errors.length = items.length := by
  induction items generalizing w with
  | nil => simp [phpProviderCleanRun]
  | cons item rest ih =>
    have hr := ih w
    have hr2 := ih (removeAllFS w (ExpandHome w item.path)).1
    by_cases hc : item.command = ""
    · simp [phpProviderCleanRun, hc]
      omega
    · by_cases hp : item.path = ""
      · simp [phpProviderCleanRun, hc, hp]
        omega
      · cases h : (removeAllFS w (ExpandHome w item.path)).2 <;>
          simp [phpProviderCleanRun, hc, hp, h] <;> omega

/-- Accounting of the Rust provider's clean loop. -/
theorem rustProviderCleanRun_accounting (items : List CleanableItem) (w : World) :
    (rustProviderCleanRun items w).1.itemsCleaned +
      (rustProviderCleanRun items w).1.errors.length = items.length := by
  induction items generalizing w with
  | nil => simp [rustProviderCleanRun]
  | cons item rest ih =>
    have hr := ih w
    have hr2 := ih (removeAllFS w (ExpandHome w item.path)).1
    by_cases hp : item.path = ""
    · by_cases hc : item.command = "" <;>
        by_cases hf : w.cmdFails item.command = true <;>
          simp [rustProviderCleanRun, hp, hc, hf] <;> omega
    · cases h : (removeAllFS w (ExpandHome w item.path)).2 <;>
        simp [rustProviderCleanRun, hp, h] <;> omega

/-- Counterexample to C3 as stated: the Node provider's clean, handed a
single item whose command is non-empty but all whitespace, panics on
the unguarded `parts[0]` index before any invocation and returns no
CleanResult at all — so "every provider's Clean always returns a
CleanResult" fails at this concrete input. -/
theorem node_clean_panic_counterexample :
    blankCmdItem.command ≠ "" ∧
    NodeProviderClean [blankCmdItem] emptyWorld = none := by
  refine ⟨by decide, rfl⟩

/-- C3 amended: `CleanItems` and the Go, Java, Python, PHP and Rust
`Clean` implementations return their result with a nil error — the
errors sequence inside the result is the sole failure channel — and
account for every input item exactly once, a per-item failure skipping
only that item; the Node `Clean` does the same whenever every
command-carrying item's command splits into at least one field, but
panics (returns nothing at all) on an item whose non-empty command is
all whitespace. -/
theorem clean_error_channel (items : List CleanableItem) (w : World) (dr : Bool) :
    ((∀ it ∈ items, it.command ≠ "" → (goFields it.command).isEmpty = false) →
      ∃ r wo t, NodeProviderClean items w = some ((r, none), wo, t) ∧
        r.itemsCleaned + r.errors.length = items.length) ∧
    (∀ (item : CleanableItem) (rest : List CleanableItem),
      item.command ≠ "" → (goFields item.command).isEmpty = true →
      NodeProviderClean (item :: rest) w = none) ∧
    (CleanItems items dr w).1.2 = none ∧
    (GoProviderClean items w).1.2 = none ∧
    (JavaProviderClean items w).1.2 = none ∧
    (PythonProviderClean items w).1.2 = none ∧
    (PHPProviderClean items w).1.2 = none ∧
    (RustProviderClean items w).1.2 = none ∧
    (CleanItems items false w).1.1.itemsCleaned +
      (CleanItems items false w).1.1.errors.length = items.length ∧
    (GoProviderClean items w).1.1.itemsCleaned +
      (GoProviderClean items w).1.1.errors.length = items.length ∧
    (JavaProviderClean items w).1.1.itemsCleaned +
      (JavaProviderClean items w).1.1.errors.length = items.length ∧
    (PythonProviderClean items w).1.1.itemsCleaned +
      (PythonProviderClean items w).1.1.errors.length = items.length ∧
    (PHPProviderClean items w).1.1.itemsCleaned +
      (PHPProviderClean items w).1.1.errors.length = items.length ∧
    (RustProviderClean items w).1.1.itemsCleaned +
      (RustProviderClean items w).1.1.errors.length = items.length := by
  refine ⟨?_, ?_, rfl, rfl, rfl, rfl, rfl, rfl, ?_, ?_, ?_, ?_, ?_, ?_⟩
  · intro h
    obtain ⟨r, wo, t, hres, hacc, _⟩ := nodeProviderCleanRun_sound items w h
    exact ⟨r, wo, t, by simp [NodeProviderClean, hres], hacc⟩
  · intro item rest hc hf
    simp [NodeProviderClean, nodeProviderCleanRun_panic item rest w hc hf]
  · have h := cleanItemsRun_flags items w
    have hlen := h.2.2.2
    have := h.1
    have := h.2.1
    show (cleanItemsRun items false w).1.itemsCleaned +
      (cleanItemsRun items false w).1.errors.length = items.length
    rw [h.1, h.2.1, ← hlen]
    exact List.count_true_add_count_false _
  · exact goProviderCleanRun_accounting items w
  · exact javaProviderCleanRun_accounting items w
  · exact pythonProviderCleanRun_accounting items w
  · exact phpProviderCleanRun_accounting items w
  · exact rustProviderCleanRun_accounting items w

/-- Witness for the amended C3: the Node clean panics on the concrete
whitespace-command item, and completes with nil error and full
accounting on the well-formed composer-command item. -/
theorem clean_error_channel_witness :
    NodeProviderClean [blankCmdItem] witnessWorld = none ∧
    ∃ r wo t, NodeProviderClean [composerItem] witnessWorld =
        some ((r, none), wo, t) ∧
      r.itemsCleaned + r.errors.length = [composerItem].length := by
  refine ⟨(clean_error_channel [] witnessWorld false).2.1 blankCmdItem []
      (by decide) (by decide), ?_⟩
  exact (clean_error_channel [composerItem] witnessWorld false).1
    (by intro it hit hc
        simp only [List.mem_singleton] at hit
        subst hit
        decide)

/-- C10: the non-dry-run `CleanItems` accounts for every item exactly
once — the cleaned counter counts the successful items, the errors
sequence the failing ones, their total is the input length, and the
reclaimed space sums the sizes of exactly the non-failing items; an
item carrying neither a command nor a path is counted cleaned with no
action taken (no error, no world change, no subprocess). -/
theorem cleanItems_accounting (items : List CleanableItem) (w : World) :
    (CleanItems items false w).1.1.itemsCleaned =
        (cleanSuccessFlags items w).count true ∧
    (CleanItems items false w).1.1.errors.length =
        (cleanSuccessFlags items w).count false ∧
    (cleanSuccessFlags items w).length = items.length ∧
    (CleanItems items false w).1.1.spaceReclaimed =
        flaggedSizeSum items (cleanSuccessFlags items w) ∧
    (∀ item, item.command = "" → item.path = "" →
      cleanItemExec w item = (none, w, [])) := by
  have h := cleanItemsRun_flags items w
  exact ⟨h.1, h.2.1, h.2.2.2, h.2.2.1,
    fun item h1 h2 => by simp [cleanItemExec, h1, h2]⟩

/-- Witness for C10: a neutral item (no command, no path) is a no-op
counted as cleaned, with its size credited. -/
theorem cleanItems_accounting_witness :
    cleanItemExec emptyWorld neutralItem = (none, emptyWorld, []) ∧
    (CleanItems [neutralItem] false emptyWorld).1.1.itemsCleaned = 1 ∧
    (CleanItems [neutralItem] false emptyWorld).1.1.spaceReclaimed = 7 ∧
    (CleanItems [neutralItem] false emptyWorld).1.1.errors = [] :=
  ⟨(cleanItems_accounting [] emptyWorld).2.2.2.2 neutralItem rfl rfl,
    by decide, by decide, by decide⟩

/-- C6: the usage totals of the Go and Rust providers equal the sum of
their item sizes, every item size is non-negative, and membership of an
item is decided by path existence alone — an existing zero-size location
still contributes an item. -/
theorem usage_total_eq_sum (w : World) (goEnv : String → String) :
    (GoGetGlobalCacheUsage w goEnv).total =
        ((GoGetGlobalCacheUsage w goEnv).items.map (·.size)).sum ∧
    (∀ it ∈ (GoGetGlobalCacheUsage w goEnv).items, 0 ≤ it.size) ∧
    (RustGetGlobalCacheUsage w).total =
        ((RustGetGlobalCacheUsage w).items.map (·.size)).sum ∧
    (∀ it ∈ (RustGetGlobalCacheUsage w).items, 0 ≤ it.size) ∧
    (PathExists w "~/.cargo/registry" = true →
      ∃ it ∈ (RustGetGlobalCacheUsage w).items, it.path = "~/.cargo/registry") := by
  have hfold : ∀ (L : List DiskUsageItem),
      L.foldl (fun acc it => acc + it.size) 0 = (L.map (·.size)).sum := by
    intro L
    rw [foldl_size_eq_sum]
    simp
  refine ⟨hfold _, ?_, hfold _, ?_, ?_⟩
  · intro it hit
    simp only [GoGetGlobalCacheUsage] at hit
    split_ifs at hit <;>
      simp only [List.mem_append, List.mem_singleton, List.mem_cons,
        List.not_mem_nil, or_false, false_or] at hit <;>
      (try casesm* _ ∨ _) <;> subst_vars <;> exact calculateDirSize_nonneg _ _
  · intro it hit
    simp only [RustGetGlobalCacheUsage] at hit
    split_ifs at hit <;>
      simp only [List.mem_append, List.mem_singleton, List.mem_cons,
        List.not_mem_nil, or_false, false_or] at hit <;>
      (try casesm* _ ∨ _) <;> subst_vars <;> exact calculateDirSize_nonneg _ _
  · intro h
    refine ⟨⟨"~/.cargo/registry", "Cargo Registry",
      (CalculateDirSize w "~/.cargo/registry").1⟩, ?_, rfl⟩
    simp only [RustGetGlobalCacheUsage]
    split_ifs <;> simp_all

/-- Witness for C6: in a concrete world holding only the cargo registry,
the Rust provider reports one 200-byte item whose size equals the
total. -/
theorem usage_total_eq_sum_witness :
    PathExists cargoWorld "~/.cargo/registry" = true ∧
    (∃ it ∈ (RustGetGlobalCacheUsage cargoWorld).items,
      it.path = "~/.cargo/registry") ∧
    (RustGetGlobalCacheUsage cargoWorld).total = 200 ∧
    (RustGetGlobalCacheUsage cargoWorld).items.length = 1 :=
  ⟨rfl, (usage_total_eq_sum cargoWorld (fun _ => "")).2.2.2.2 rfl, by decide, by decide⟩

/-- Counterexample to C4 as stated: running `CleanItems` twice on the
same single path-driven item removes the path on the first run, and on
the second run — the path now absent — still reports one item cleaned
and 100 bytes reclaimed, not zero, because the absent-path success is
counted like any other success. -/
theorem clean_twice_counterexample :
    (CleanItems [modCacheItem] false modCacheWorld).1.1.itemsCleaned = 1 ∧
    (CleanItems [modCacheItem] false modCacheWorld).2.1.existing = [] ∧
    (CleanItems [modCacheItem] false
        (CleanItems [modCacheItem] false modCacheWorld).2.1).1.1.itemsCleaned = 1 ∧
    (CleanItems [modCacheItem] false
        (CleanItems [modCacheItem] false modCacheWorld).2.1).1.1.spaceReclaimed = 100 ∧
    (CleanItems [modCacheItem] false
        (CleanItems [modCacheItem] false modCacheWorld).2.1).1.1.errors = [] ∧
    ¬((CleanItems [modCacheItem] false
        (CleanItems [modCacheItem] false modCacheWorld).2.1).1.1.itemsCleaned = 0 ∧
      (CleanItems [modCacheItem] false
        (CleanItems [modCacheItem] false modCacheWorld).2.1).1.1.spaceReclaimed = 0) := by
  refine ⟨by decide, by decide, by decide, by decide, by decide, by decide⟩

/-- C4 amended: on a second run over the same items every already-absent
path is treated as success — no error is recorded and the world is
untouched — but the counters count these successes, so the second run
reports the full item count and the full recorded sizes, not zero; the
spec's zero/zero outcome belongs to the full command, whose re-run
re-enumerates cleanable items, finds none (absent paths are excluded by
`GetCleanableItems`), and stops before invoking `Clean` at all. -/
theorem clean_second_run_amended :
    (∀ (items : List CleanableItem) (w : World),
      (∀ it ∈ items, it.command = "" ∧
          (it.path = "" ∨ PathExists w (ExpandHome w it.path) = false)) →
      cleanItemsRun items false w =
        (⟨items.length, (items.map (·.size)).sum, []⟩, w, [])) ∧
    (∀ (p : ProviderModel) (dr force : Bool) (input : Option String) (w : World),
      p.itemsResult = Except.ok [] →
      cleanProvider p dr force input w = (.nothingToClean, w, [], false)) := by
  constructor
  · intro items
    induction items with
    | nil => intro w h; rfl
    | cons item rest ih =>
      intro w h
      obtain ⟨hc, hp⟩ := h item (List.mem_cons_self _ _)
      have hrest := ih w (fun it hit => h it (List.mem_cons_of_mem _ hit))
      rcases hp with hp | hp
      · simp [cleanItemsRun, cleanItemExec, hc, hp, hrest]
      · by_cases hpe : item.path = ""
        · simp [cleanItemsRun, cleanItemExec, hc, hpe, hrest]
        · simp [cleanItemsRun, cleanItemExec, CleanDirectory, hc, hpe, hp, hrest]
  · intro p dr force input w h
    simp [cleanProvider, h]

/-- Witness for the amended C4: a concrete run over `modCacheItem` in a
world where its path is absent counts it cleaned with its recorded
size and no error, and a provider whose enumeration is empty stops the
orchestrator untouched. -/
theorem clean_second_run_amended_witness :
    cleanItemsRun [modCacheItem] false emptyWorld =
      (⟨[modCacheItem].length, ([modCacheItem].map (·.size)).sum, []⟩,
        emptyWorld, []) ∧
    (cleanItemsRun [modCacheItem] false emptyWorld).1.itemsCleaned = 1 ∧
    cleanProvider emptyGoProviderModel false false none emptyWorld =
      (.nothingToClean, emptyWorld, [], false) :=
  ⟨clean_second_run_amended.1 [modCacheItem] emptyWorld
      (by intro it hit
          simp only [List.mem_singleton] at hit
          subst hit
          exact ⟨rfl, Or.inr rfl⟩),
    by decide,
    clean_second_run_amended.2 _ false false none emptyWorld rfl⟩

/-- Counterexample to C5 as stated: the PHP provider's clean is handed
its own curated item — a non-empty command ("composer clear-cache") and
no path — in a world where every subprocess and every removal would
fail; it invokes no subprocess at all, touches nothing, reports no
error, and still counts the item cleaned.  The Python provider's clean
likewise invokes nothing. -/
theorem provider_command_counterexample :
    composerItem.command = "composer clear-cache" ∧
    (PHPProviderClean [composerItem] strictWorld).2.2 = [] ∧
    (PHPProviderClean [composerItem] strictWorld).2.1.existing =
      strictWorld.existing ∧
    (PHPProviderClean [composerItem] strictWorld).1.1.itemsCleaned = 1 ∧
    (PHPProviderClean [composerItem] strictWorld).1.1.errors = [] ∧
    (PythonProviderClean [composerItem] strictWorld).2.2 = [] ∧
    (PythonProviderClean [composerItem] strictWorld).1.1.itemsCleaned = 1 := by
  refine ⟨rfl, rfl, by decide, by decide, by decide, rfl, by decide⟩

/-- Trace of the Java provider's clean loop: empty, always. -/
theorem javaProviderCleanRun_trace (items : List CleanableItem) (w : World) :
    (javaProviderCleanRun items w).2.2 = [] := by
  induction items generalizing w with
  | nil => rfl
  | cons item rest ih =>
    by_cases hp : item.path = ""
    · simp [javaProviderCleanRun, hp, ih w]
    · cases h : (removeAllFS w (ExpandHome w item.path)).2 <;>
        simp [javaProviderCleanRun, hp, h,
          ih (removeAllFS w (ExpandHome w item.path)).1]

/-- Trace of the Python provider's clean loop: empty, always. -/
theorem pythonProviderCleanRun_trace (items : List CleanableItem) (w : World) :
    (pythonProviderCleanRun items w).2.2 = [] := by
  induction items generalizing w with
  | nil => rfl
  | cons item rest ih =>
    by_cases hc : item.command = ""
    · simp [pythonProviderCleanRun, hc, ih w]
    · by_cases hn : (goFields item.command).length > 0
      · cases h : (removeAllFS w (ExpandHome w item.path)).2 <;>
          simp [pythonProviderCleanRun, hc, hn, h,
            ih (removeAllFS w (ExpandHome w item.path)).1]
      · simp [pythonProviderCleanRun, hc, hn, ih w]

/-- Trace of the PHP provider's clean loop: empty, always. -/
theorem phpProviderCleanRun_trace (items : List CleanableItem) (w : World) :
    (phpProviderCleanRun items w).2.2 = [] := by
  induction items generalizing w with
  | nil => rfl
  | cons item rest ih =>
    by_cases hc : item.command = ""
    · simp [phpProviderCleanRun, hc, ih w]
    · by_cases hp : item.path = ""
      · simp [phpProviderCleanRun, hc, hp, ih w]
      · cases h : (removeAllFS w (ExpandHome w item.path)).2 <;>
          simp [phpProviderCleanRun, hc, hp, h,
            ih (removeAllFS w (ExpandHome w item.path)).1]

/-- Trace of the Go provider's clean loop: exactly the commands of the
command-carrying items, in order. -/
theorem goProviderCleanRun_trace (items : List CleanableItem) (w : World) :
    (goProviderCleanRun items w).2.2 =
      (items.filter fun it => it.command != "").map (·.command) := by
  induction items generalizing w with
  | nil => rfl
  | cons item rest ih =>
    by_cases hc : item.command = "" <;>
      by_cases hf : w.cmdFails item.command = true <;>
        simp [goProviderCleanRun, List.filter_cons, hc, hf, ih w]

/-- Trace of the Rust provider's clean loop: exactly the commands of the
items that carry a command but no path. -/
theorem rustProviderCleanRun_trace (items : List CleanableItem) (w : World) :
    (rustProviderCleanRun items w).2.2 =
      (items.filter fun it => it.path == "" && it.command != "").map (·.command) := by
  induction items generalizing w with
  | nil => rfl
  | cons item rest ih =>
    by_cases hp : item.path = ""
    · by_cases hc : item.command = "" <;>
        by_cases hf : w.cmdFails item.command = true <;>
          simp [rustProviderCleanRun, List.filter_cons, hp, hc, hf, ih w]
    · cases h : (removeAllFS w (ExpandHome w item.path)).2 <;>
        simp [rustProviderCleanRun, List.filter_cons, hp, h,
          ih (removeAllFS w (ExpandHome w item.path)).1]

/-- C5 amended: the Go provider's clean invokes exactly the commands of
its command-carrying items as subprocesses, with a failed invocation
recorded as a per-item error and the item skipped; the Node clean does
the same whenever every command-carrying item's command has at least
one field, but panics — before any invocation or error record — on a
non-empty all-whitespace command; the Rust clean prefers the path and
invokes the command only when no path is present; the Java, Python and
PHP cleans never invoke any subprocess — for a command-carrying item,
PHP (when the item also has a non-empty path) and Python (whenever the
command has at least one field) instead recursively delete the item's
path and count the item cleaned. -/
theorem provider_clean_dispatch_amended :
    (∀ (items : List CleanableItem) (w : World),
      (PHPProviderClean items w).2.2 = [] ∧
      (PythonProviderClean items w).2.2 = [] ∧
      (JavaProviderClean items w).2.2 = [] ∧
      (GoProviderClean items w).2.2 =
        (items.filter fun it => it.command != "").map (·.command) ∧
      (RustProviderClean items w).2.2 =
        (items.filter fun it => it.path == "" && it.command != "").map (·.command)) ∧
    (∀ (items : List CleanableItem) (w : World),
      (∀ it ∈ items, it.command ≠ "" → (goFields it.command).isEmpty = false) →
      ∃ r wo t, NodeProviderClean items w = some ((r, none), wo, t) ∧
        t = (items.filter fun it => it.command != "").map (·.command)) ∧
    (∀ (item : CleanableItem) (rest : List CleanableItem) (w : World),
      item.command ≠ "" → (goFields item.command).isEmpty = true →
      NodeProviderClean (item :: rest) w = none) ∧
    (∀ (item : CleanableItem) (rest : List CleanableItem) (w : World),
      item.command ≠ "" → (goFields item.command).isEmpty = false →
      w.cmdFails item.command = true →
      nodeProviderCleanRun (item :: rest) w =
        (nodeProviderCleanRun rest w).map fun res =>
          (⟨res.1.itemsCleaned, res.1.spaceReclaimed,
              ("failed to clean " ++ item.description) :: res.1.errors⟩,
            res.2.1, item.command :: res.2.2)) ∧
    (∀ (item : CleanableItem) (rest : List CleanableItem) (w : World),
      item.command ≠ "" → w.cmdFails item.command = true →
      (goProviderCleanRun (item :: rest) w).1.errors =
          ("failed to clean " ++ item.description) ::
            (goProviderCleanRun rest w).1.errors ∧
      (goProviderCleanRun (item :: rest) w).1.itemsCleaned =
          (goProviderCleanRun rest w).1.itemsCleaned) ∧
    (∀ (item : CleanableItem) (rest : List CleanableItem) (w : World),
      item.command ≠ "" → item.path ≠ "" →
      (removeAllFS w (ExpandHome w item.path)).2 = none →
      phpProviderCleanRun (item :: rest) w =
        (⟨(phpProviderCleanRun rest (removeAllFS w (ExpandHome w item.path)).1).1.itemsCleaned + 1,
            item.size +
              (phpProviderCleanRun rest (removeAllFS w (ExpandHome w item.path)).1).1.spaceReclaimed,
            (phpProviderCleanRun rest (removeAllFS w (ExpandHome w item.path)).1).1.errors⟩,
          (phpProviderCleanRun rest (removeAllFS w (ExpandHome w item.path)).1).2.1,
          (phpProviderCleanRun rest (removeAllFS w (ExpandHome w item.path)).1).2.2)) ∧
    (∀ (item : CleanableItem) (rest : List CleanableItem) (w : World),
      item.command ≠ "" → (goFields item.command).length > 0 →
      (removeAllFS w (ExpandHome w item.path)).2 = none →
      pythonProviderCleanRun (item :: rest) w =
        (⟨(pythonProviderCleanRun rest (removeAllFS w (ExpandHome w item.path)).1).1.itemsCleaned + 1,
            item.size +
              (pythonProviderCleanRun rest (removeAllFS w (ExpandHome w item.path)).1).1.spaceReclaimed,
            (pythonProviderCleanRun rest (removeAllFS w (ExpandHome w item.path)).1).1.errors⟩,
          (pythonProviderCleanRun rest (removeAllFS w (ExpandHome w item.path)).1).2.1,
          (pythonProviderCleanRun rest (removeAllFS w (ExpandHome w item.path)).1).2.2)) := by
  refine ⟨?_, ?_, ?_, ?_, ?_, ?_, ?_⟩
  · intro items w
    exact ⟨phpProviderCleanRun_trace items w, pythonProviderCleanRun_trace items w,
      javaProviderCleanRun_trace items w, goProviderCleanRun_trace items w,
      rustProviderCleanRun_trace items w⟩
  · intro items w h
    obtain ⟨r, wo, t, hres, _, htr⟩ := nodeProviderCleanRun_sound items w h
    exact ⟨r, wo, t, by simp [NodeProviderClean, hres], htr⟩
  · intro item rest w hc hf
    simp [NodeProviderClean, nodeProviderCleanRun_panic item rest w hc hf]
  · intro item rest w hc hf hcf
    exact nodeProviderCleanRun_failure_record item rest w hc hf hcf
  · intro item rest w hc hf
    constructor <;> simp [goProviderCleanRun, hc, hf]
  · intro item rest w hc hp hrm
    simp [phpProviderCleanRun, hc, hp, hrm]
  · intro item rest w hc hn hrm
    simp [pythonProviderCleanRun, hc, hn, hrm]

/-- Witness for the amended C5: on concrete command-plus-path items in a
world whose subprocesses all fail, the PHP and Python cleans succeed by
deleting the path, never running the command; the Node clean traces
exactly the well-formed command and panics on the whitespace one. -/
theorem provider_clean_dispatch_amended_witness :
    (removeAllFS phpWorld (ExpandHome phpWorld "/srv/data")).2 = none ∧
    (phpProviderCleanRun [phpPathItem] phpWorld).1.itemsCleaned = 1 ∧
    (phpProviderCleanRun [phpPathItem] phpWorld).2.1.existing = [] ∧
    (pythonProviderCleanRun [pipPathItem] phpWorld).1.itemsCleaned = 1 ∧
    (goProviderCleanRun [composerItem] strictWorld).1.errors =
      ["failed to clean Composer Cache"] ∧
    (∃ r wo t, NodeProviderClean [composerItem] phpWorld =
        some ((r, none), wo, t) ∧ t = ["composer clear-cache"]) ∧
    NodeProviderClean (blankCmdItem :: [composerItem]) phpWorld = none := by
  have hphp := provider_clean_dispatch_amended.2.2.2.2.2.1 phpPathItem [] phpWorld
    (by decide) (by decide) rfl
  have hpy := provider_clean_dispatch_amended.2.2.2.2.2.2 pipPathItem [] phpWorld
    (by decide) (by decide) rfl
  have hgo := provider_clean_dispatch_amended.2.2.2.2.1 composerItem [] strictWorld
    (by decide) rfl
  have hnode := provider_clean_dispatch_amended.2.1 [composerItem] phpWorld
    (by intro it hit hc
        simp only [List.mem_singleton] at hit
        subst hit
        decide)
  have hpanic := provider_clean_dispatch_amended.2.2.1 blankCmdItem [composerItem]
    phpWorld (by decide) (by decide)
  refine ⟨rfl, ?_, ?_, ?_, ?_, ?_, hpanic⟩
  · rw [hphp]
    decide
  · rw [hphp]
    decide
  · rw [hpy]
    decide
  · rw [hgo.1]
    rfl
  · obtain ⟨r, wo, t, hres, htr⟩ := hnode
    exact ⟨r, wo, t, hres, htr.trans (by decide)⟩

/-- Slot writes preserve the length of the result slice. -/
theorem writeSlots_length {β : Type} (ws : List (Nat × β)) (init : List β) :
    (writeSlots init ws).length = init.length := by
  induction ws generalizing init with
  | nil => rfl
  | cons iv rest ih => simp [writeSlots, ih, List.length_set]

/-- A slot no write targets keeps its initial value. -/
theorem writeSlots_getElem_not_mem {β : Type} (ws : List (Nat × β))
    (init : List β) (j : Nat) (h : j ∉ ws.map Prod.fst) :
    (writeSlots init ws)[j]? = init[j]? := by
  induction ws generalizing init with
  | nil => rfl
  | cons iv rest ih =>
    simp only [List.map_cons, List.mem_cons, not_or] at h
    rw [writeSlots, ih _ h.2, List.getElem?_set_ne (fun he => h.1 he.symm)]

/-- A slot all of whose writes carry the same value ends up holding that
value, whatever order the writes arrive in. -/
theorem writeSlots_getElem_mem {β : Type} (ws : List (Nat × β))
    (init : List β) (j : Nat) (v : β) (hmem : j ∈ ws.map Prod.fst)
    (hval : ∀ p ∈ ws, p.1 = j → p.2 = v) (hj : j < init.length) :
    (writeSlots init ws)[j]? = some v := by
  induction ws generalizing init with
  | nil => simp at hmem
  | cons iv rest ih =>
    by_cases hij : iv.1 = j
    · have hv : iv.2 = v := hval iv (List.mem_cons_self _ _) hij
      by_cases hrest : j ∈ rest.map Prod.fst
      · exact ih (init.set iv.1 iv.2) hrest
          (fun p hp hpj => hval p (List.mem_cons_of_mem _ hp) hpj)
          (by simpa [List.length_set] using hj)
      · rw [writeSlots, writeSlots_getElem_not_mem rest _ j hrest, hij, hv,
          List.getElem?_set_self hj]
    · have hrest : j ∈ rest.map Prod.fst := by
        simp only [List.map_cons, List.mem_cons] at hmem
        exact hmem.resolve_left (fun he => hij he.symm)
      exact ih (init.set iv.1 iv.2) hrest
        (fun p hp hpj => hval p (List.mem_cons_of_mem _ hp) hpj)
        (by simpa [List.length_set] using hj)

/-- C9: whatever order the per-provider tasks complete in — any
permutation of the provider indices — the aggregated result sequence of
the scan orchestrator has one slot per input provider and equals the
input-order map of the per-provider scan. -/
theorem scan_preserves_order {α β : Type} (f : α → β) (dflt : β)
    (ps : List α) (order : List Nat)
    (h : order.Perm (List.range ps.length)) :
    scanProviders f dflt ps order = ps.map f := by
  apply List.ext_getElem?
  intro j
  by_cases hj : j < ps.length
  · have hjo : j ∈ order := h.mem_iff.mpr (List.mem_range.mpr hj)
    have hkey : j ∈ (order.filterMap fun i =>
        (ps[i]?).map fun p => (i, f p)).map Prod.fst := by
      refine List.mem_map.mpr ⟨(j, f ps[j]), ?_, rfl⟩
      exact List.mem_filterMap.mpr ⟨j, hjo, by simp [List.getElem?_eq_getElem hj]⟩
    have hval : ∀ p ∈ (order.filterMap fun i =>
        (ps[i]?).map fun p => (i, f p)), p.1 = j → p.2 = f ps[j] := by
      intro p hp hpj
      rcases List.mem_filterMap.mp hp with ⟨i, _hi, hmap⟩
      rcases Option.map_eq_some'.mp hmap with ⟨x, hx, hpx⟩
      subst hpx
      simp only at hpj
      subst hpj
      rw [List.getElem?_eq_getElem hj] at hx
      simp only [Option.some.injEq] at hx
      rw [← hx]
    rw [scanProviders, writeSlots_getElem_mem _ _ j (f ps[j]) hkey hval
      (by simp [hj])]
    rw [List.getElem?_map, List.getElem?_eq_getElem hj]
    rfl
  · have h1 : (scanProviders f dflt ps order).length = ps.length := by
      simp [scanProviders, writeSlots_length]
    rw [List.getElem?_eq_none (by omega), List.getElem?_eq_none (by simp; omega)]

/-- Witness for C9: three providers, the middle task completing first
(completion order [1, 0, 2]), still yield the input-order results. -/
theorem scan_preserves_order_witness :
    List.Perm [1, 0, 2] (List.range 3) ∧
    scanProviders (fun n => n + 10) 0 [1, 2, 3] [1, 0, 2] = [11, 12, 13] :=
  ⟨by decide,
    (scan_preserves_order (fun n => n + 10) 0 [1, 2, 3] [1, 0, 2]
      (by decide)).trans (by decide)⟩

end DHell
